import Mathlib

/-!
Shallow embedding of the notification-dispatch core of the abexIV transit-card
backend (`BACKEND_INTEGRATION_EXAMPLE.py` plus the ORM models in
`src/models/user.py`), together with proofs about its behaviour.

Conventions of the embedding:
* User identifiers, channel (websocket) identities, notification identifiers
  and timestamps are `Nat`.  Timestamps are abstract time units; `created_at`
  fields carry them.
* Money is represented in centavos (`Int`): the Python `Float` balances are
  two-decimal currency amounts, so `balance = 350` stands for `R$ 3.50` and
  the threshold `MIN_BALANCE = 5.00` is `500`.
* The SQLAlchemy session is modelled as an explicit list of rows, in insertion
  order; `db.add` appends, a query filter is a list filter, `.first()` is
  `List.find?`.
* Python exceptions are modelled with `Except` / explicit outcome types.
-/

set_option autoImplicit false

namespace AbexIV

abbrev UserId := Nat
abbrev Channel := Nat

/-- A row of the `notification_logs` table (class `NotificationLog`). -/
structure NotificationLog where
  id : Nat
  user_id : UserId
  notification_type : String
  title : String
  message : String
  read : Bool
  created_at : Nat
  deriving Repr, DecidableEq

/-- A row of the `transit_lines` table (class `TransitLine`). -/
structure TransitLine where
  id : Nat
  name : String
  current_delay : Int
  delay_reason : Option String
  deriving Repr, DecidableEq

/-- A row of the `user_lines` table (class `UserLine`): user `user_id`
follows line `line_id`. -/
structure UserLine where
  user_id : UserId
  line_id : Nat
  deriving Repr, DecidableEq

/-- The `User` model of `src/models/user.py`, restricted to the fields the
notification core reads (`id` and the card balance, in centavos). -/
structure PyUser where
  id : UserId
  balance : Int
  deriving Repr, DecidableEq

/-- The contents of the `notification_logs` table, in insertion order. -/
abbrev Store := List NotificationLog

/-- A structured push event as sent over the websocket
(`broadcast_to_user`'s `message` argument). -/
inductive PushEvent where
  | lineDelay (line_id : Nat) (line_name : String) (delay_minutes : Int) (reason : String)
  | lowBalance (current_balance : Int) (min_balance : Int)
  deriving Repr, DecidableEq

/-! ## Connection Registry (`NotificationManager`)

`active_connections` is a Python dict from user id to the list of open
websockets, modelled as an association list with first-match lookup.  Python
dict keys are unique; the embedding's operations use first-match semantics,
which coincide on the states reachable from the empty registry. -/

/-- `NotificationManager.active_connections`. -/
abbrev Registry := List (UserId × List Channel)

/-- `user_id in self.active_connections` / `self.active_connections[user_id]`:
first-match lookup of a user's channel list. -/
def Registry.lookup : Registry → UserId → Option (List Channel)
  | [], _ => none
  | (v, cs) :: rest, u => if v = u then some cs else Registry.lookup rest u

/-- `NotificationManager.connect`: create the user's entry if absent, then
append the websocket to the user's list. -/
def connect : Registry → UserId → Channel → Registry
  | [], u, c => [(u, [c])]
  | (v, cs) :: rest, u, c =>
    if v = u then (v, cs ++ [c]) :: rest else (v, cs) :: connect rest u c

/-- `NotificationManager.disconnect`: if the user has an entry, remove the
websocket from its list (`list.remove` — raises `ValueError`, modelled as
`Except.error`, when the websocket is not in the list) and delete the entry
if the list became empty; if the user has no entry, do nothing. -/
def disconnect : Registry → UserId → Channel → Except String Registry
  | [], _, _ => .ok []
  | (v, cs) :: rest, u, c =>
    if v = u then
      if c ∈ cs then
        let cs' := cs.erase c
        if cs' = [] then .ok rest else .ok ((v, cs') :: rest)
      else .error "ValueError"
    else do
      let rest' ← disconnect rest u c
      .ok ((v, cs) :: rest')

/-- The `for connection in ...: try: await connection.send_json(message)
except: print(...)` loop of `broadcast_to_user`: every channel whose send
succeeds receives the event; a failing send is swallowed and the loop goes
on.  `fails c = true` means channel `c`'s send raises. -/
def sendLoop (fails : Channel → Bool) (e : PushEvent) :
    List Channel → List (Channel × PushEvent)
  | [] => []
  | c :: cs =>
    if fails c then sendLoop fails e cs else (c, e) :: sendLoop fails e cs

/-- `NotificationManager.broadcast_to_user`: if the user has registered
channels, attempt a send on each of them in registration order; the method
never mutates `active_connections` (the registry is returned unchanged) and
never raises.  The result records the registry and the list of
(channel, event) deliveries that succeeded. -/
def broadcast_to_user (r : Registry) (u : UserId) (e : PushEvent)
    (fails : Channel → Bool) : Registry × List (Channel × PushEvent) :=
  match r.lookup u with
  | none => (r, [])
  | some cs => (r, sendLoop fails e cs)

/-- One registry operation, for stating invariants over arbitrary
operation sequences. -/
inductive RegOp where
  | connect (u : UserId) (c : Channel)
  | disconnect (u : UserId) (c : Channel)
  deriving Repr, DecidableEq

/-- Apply one operation.  A `disconnect` that raises `ValueError` leaves the
registry unchanged (Python's `list.remove` raises before mutating). -/
def applyRegOp (r : Registry) : RegOp → Registry
  | .connect u c => connect r u c
  | .disconnect u c =>
    match disconnect r u c with
    | .ok r' => r'
    | .error _ => r

/-- Apply a sequence of registry operations from left to right. -/
def applyRegOps (r : Registry) : List RegOp → Registry
  | [] => r
  | op :: ops => applyRegOps (applyRegOp r op) ops

/-- No entry of the registry maps a user to an empty channel list. -/
def NoEmpty (r : Registry) : Prop := ∀ p ∈ r, p.2 ≠ []

/-! ## Notification Store endpoints -/

/-- Outcome of an HTTP endpoint: a JSON success response or an
`HTTPException` with a status code and detail string. -/
inductive ApiResult where
  | success
  | httpError (status : Nat) (detail : String)
  deriving Repr, DecidableEq

/-- `str(HTTPException(status, detail))`: Starlette renders it as
`"<status>: <detail>"`. -/
def strOfHttpException (status : Nat) (detail : String) : String :=
  toString status ++ ": " ++ detail

/-- The query filter of `mark_notification_read`: the row with this id
owned by this user. -/
def matchesNotification (nid : Nat) (uid : UserId) (n : NotificationLog) : Bool :=
  n.id == nid && n.user_id == uid

/-- `notification.read = True` on the row returned by `.first()`: set the
read flag on the first row matching the filter, leaving the rest alone. -/
def setReadFirst (p : NotificationLog → Bool) : Store → Store
  | [] => []
  | n :: rest =>
    if p n then { n with read := true } :: rest else n :: setReadFirst p rest

/-- The body of the `try:` block of `POST /api/notifications/{id}/read`:
look the row up with `.first()`; raise `HTTPException(404, "Notificação não
encontrada")` when it is absent, otherwise set its read flag and commit. -/
def mark_read_body (store : Store) (nid : Nat) (uid : UserId) :
    Except (Nat × String) Store :=
  match store.find? (matchesNotification nid uid) with
  | none => .error (404, "Notificação não encontrada")
  | some _ => .ok (setReadFirst (matchesNotification nid uid) store)

/-- The endpoint `mark_notification_read`, with its `except Exception as e:
raise HTTPException(status_code=500, detail=str(e))` wrapper.  The blanket
`except Exception` also catches the inner `HTTPException(404)` (FastAPI's
`HTTPException` is an `Exception`), so every failure leaves as a 500. -/
def mark_notification_read (store : Store) (nid : Nat) (uid : UserId) :
    ApiResult × Store :=
  match mark_read_body store nid uid with
  | .ok store' => (.success, store')
  | .error (status, detail) =>
    (.httpError 500 (strOfHttpException status detail), store)

/-- The bulk `UPDATE` of `mark_all_notifications_read`: set `read = True` on
every row of this user whose `read` is `False`. -/
def markAllUpdate (uid : UserId) (n : NotificationLog) : NotificationLog :=
  if n.user_id == uid && !n.read then { n with read := true } else n

/-- The endpoint `mark_all_notifications_read`: run the bulk update and
commit; the body has no failing step, so it always returns success. -/
def mark_all_notifications_read (store : Store) (uid : UserId) :
    ApiResult × Store :=
  (.success, store.map (markAllUpdate uid))

/-- One Notification Store operation, for stating invariants over arbitrary
operation sequences.  `create` is `db.add(NotificationLog(...))` followed by
`commit` (an append); `listByUser` is the read-only
`GET /api/notifications` query. -/
inductive StoreOp where
  | create (rec : NotificationLog)
  | listByUser (uid : UserId)
  | markRead (nid : Nat) (uid : UserId)
  | markAllRead (uid : UserId)
  deriving Repr, DecidableEq

/-- Apply one store operation to the table. -/
def applyStoreOp (store : Store) : StoreOp → Store
  | .create rec => store ++ [rec]
  | .listByUser _ => store
  | .markRead nid uid => (mark_notification_read store nid uid).2
  | .markAllRead uid => (mark_all_notifications_read store uid).2

/-- Apply a sequence of store operations from left to right. -/
def applyStoreOps (store : Store) : List StoreOp → Store
  | [] => store
  | op :: ops => applyStoreOps (applyStoreOp store op) ops

/-- How one notification row may evolve under store operations: every field
is preserved except the read flag, which may only go from unread to read. -/
def evolves (r r' : NotificationLog) : Prop :=
  r'.id = r.id ∧ r'.user_id = r.user_id ∧
  r'.notification_type = r.notification_type ∧ r'.title = r.title ∧
  r'.message = r.message ∧ r'.created_at = r.created_at ∧
  (r.read = true → r'.read = true)

/-! ## Delay notifications (`notify_users_about_line_delay`) -/

/-- The `NotificationLog(...)` constructed for one subscriber of a delayed
line: Portuguese title `"Atraso na <line name>"` and message
`"Motivo: <reason>. Tempo estimado de atraso: <minutes> minutos."`. -/
def delayRecord (nid : Nat) (uid : UserId) (line : TransitLine)
    (delay_minutes : Int) (reason : String) (now : Nat) : NotificationLog :=
  { id := nid
    user_id := uid
    notification_type := "line_delay"
    title := "Atraso na " ++ line.name
    message := "Motivo: " ++ reason ++ ". Tempo estimado de atraso: " ++
      toString delay_minutes ++ " minutos."
    read := false
    created_at := now }

/-- The per-subscriber loop of `notify_users_about_line_delay`: for each
`UserLine` row, add a `NotificationLog` (ids assigned sequentially from
`nextId`) and invoke `broadcast_to_user` with the `line_delay` event.
Returns the added rows and the (user, event) pairs handed to the
registry. -/
def notifyDelayLoop (line : TransitLine) (delay_minutes : Int) (reason : String)
    (now : Nat) : Nat → List UserLine → Store × List (UserId × PushEvent)
  | _, [] => ([], [])
  | nextId, ul :: rest =>
    (delayRecord nextId ul.user_id line delay_minutes reason now ::
       (notifyDelayLoop line delay_minutes reason now (nextId + 1) rest).1,
     (ul.user_id, .lineDelay line.id line.name delay_minutes reason) ::
       (notifyDelayLoop line delay_minutes reason now (nextId + 1) rest).2)

/-- `notify_users_about_line_delay(db, line, delay_minutes, reason)`: query
the `UserLine` rows of this line, loop over them adding a record and pushing
an event per subscriber, then commit. -/
def notify_users_about_line_delay (store : Store) (subs : List UserLine)
    (line : TransitLine) (delay_minutes : Int) (reason : String)
    (now : Nat) (nextId : Nat) : Store × List (UserId × PushEvent) :=
  (store ++ (notifyDelayLoop line delay_minutes reason now nextId
      (subs.filter fun ul => ul.line_id == line.id)).1,
   (notifyDelayLoop line delay_minutes reason now nextId
      (subs.filter fun ul => ul.line_id == line.id)).2)

/-- Modelled from the spec: the Delay Monitor's per-line change-detection
step.  In `monitor_line_delays` the fetch of the real-time delay and the
`if new_delay != previous_delay: notify...` gate are left as a commented-out
stub, so the gate is taken from the spec's words: when the fetched delay
differs from the line's last observed delay, run
`notify_users_about_line_delay`; otherwise do nothing. -/
def delayMonitorLineStep (store : Store) (subs : List UserLine)
    (line : TransitLine) (new_delay : Int) (reason : String)
    (now : Nat) (nextId : Nat) : Store × List (UserId × PushEvent) :=
  if new_delay ≠ line.current_delay then
    notify_users_about_line_delay store subs line new_delay reason now nextId
  else
    (store, [])

/-! ## Balance monitor (`monitor_low_balance`) -/

/-- `MIN_BALANCE = 5.00`, in centavos. -/
def MIN_BALANCE : Int := 500

/-- Render `n` with at least two digits, as Python's `:.2f` does for the
fractional part. -/
def twoDigits (n : Nat) : String :=
  if n < 10 then "0" ++ toString n else toString n

/-- `f"{balance:.2f}"` on a two-decimal currency amount held as centavos:
e.g. `350 ↦ "3.50"`, `-150 ↦ "-1.50"`. -/
def formatBalance (cents : Int) : String :=
  if cents < 0 then
    "-" ++ formatBalance (-cents)
  else
    toString (cents / 100).toNat ++ "." ++ twoDigits (cents % 100).toNat
  termination_by (if cents < 0 then 1 else 0)
  decreasing_by
    simp_all
    omega

/-- The `NotificationLog(...)` created for a low-balance user: Portuguese
title `"Atenção: Saldo Baixo!"` and a message embedding the formatted
balance. -/
def lowBalanceRecord (nid : Nat) (u : PyUser) (now : Nat) : NotificationLog :=
  { id := nid
    user_id := u.id
    notification_type := "low_balance"
    title := "Atenção: Saldo Baixo!"
    message := "Seu saldo atual é de R$ " ++ formatBalance u.balance ++
      ". Recarregue para evitar interrupções."
    read := false
    created_at := now }

/-- The dedup query of `monitor_low_balance`: is there already a
`low_balance` row for this user created at or after the start of the current
calendar day?  (`created_at >= datetime.combine(today, datetime.min.time())`.) -/
def notifiedToday (store : Store) (uid : UserId) (todayStart : Nat) : Bool :=
  store.any fun n =>
    n.user_id == uid && n.notification_type == "low_balance" &&
      todayStart ≤ n.created_at

/-- The `for user in users:` loop of one `monitor_low_balance` cycle: for
each user whose balance is strictly below `MIN_BALANCE` and who has no
`low_balance` row created today, add a `lowBalanceRecord` and push a
`low_balance` event.  The dedup query runs against the evolving session
(SQLAlchemy autoflushes pending adds before a query), so the store threads
through the loop. -/
def balanceLoop (todayStart : Nat) (now : Nat) :
    Store → Nat → List PyUser → Store × List (UserId × PushEvent)
  | store, _, [] => (store, [])
  | store, nextId, u :: rest =>
    if u.balance < MIN_BALANCE && !notifiedToday store u.id todayStart then
      ((balanceLoop todayStart now (store ++ [lowBalanceRecord nextId u now])
          (nextId + 1) rest).1,
       (u.id, .lowBalance u.balance MIN_BALANCE) ::
         (balanceLoop todayStart now (store ++ [lowBalanceRecord nextId u now])
           (nextId + 1) rest).2)
    else
      balanceLoop todayStart now store nextId rest

/-- One cycle of `monitor_low_balance`: query all users, run the loop, then
commit. -/
def monitor_low_balance_cycle (store : Store) (users : List PyUser)
    (todayStart : Nat) (now : Nat) (nextId : Nat) :
    Store × List (UserId × PushEvent) :=
  balanceLoop todayStart now store nextId users

/-! ## Monitor loop structure

Both `monitor_line_delays` and `monitor_low_balance` share the shape
`while True: try: <body>; sleep(T) except Exception as e: print(e); sleep(T)`:
the whole iteration body sits inside a blanket `except Exception`, so an
iteration that raises is caught at the iteration boundary and the loop
proceeds to the next iteration after the same wait.  The sleep is abstracted
away; an iteration body may fail with an arbitrary error. -/

/-- One iteration of a monitor loop: run the body; if it raises, the
exception is caught (and logged) and the state is left as the body left it
before failing — the body is modelled as atomic, so a failed iteration
leaves the state unchanged. -/
def monitorIter (body : Store → Except String Store) (s : Store) : Store :=
  match body s with
  | .ok s' => s'
  | .error _ => s

/-- Run `n` iterations of a monitor loop whose iteration `k` executes
`body k`.  The result also counts the iterations actually performed. -/
def runMonitor (body : Nat → Store → Except String Store) :
    Nat → Nat → Store → Store × Nat
  | _, 0, s => (s, 0)
  | k, n + 1, s =>
    ((runMonitor body (k + 1) n (monitorIter (body k) s)).1,
     (runMonitor body (k + 1) n (monitorIter (body k) s)).2 + 1)

/-! ## Lemmas about the Connection Registry -/

theorem sendLoop_mem_of_not_fails (fails : Channel → Bool) (e : PushEvent)
    (cs : List Channel) (c : Channel) (hc : c ∈ cs) (hf : fails c = false) :
    (c, e) ∈ sendLoop fails e cs := by
  induction cs with
  | nil => cases hc
  | cons d cs ih =>
    rcases List.mem_cons.mp hc with rfl | hc
    · simp [sendLoop, hf]
    · cases hfd : fails d
      · simp only [sendLoop, hfd]
        exact List.mem_cons_of_mem _ (ih hc)
      · simp only [sendLoop, hfd]
        exact ih hc

theorem sendLoop_not_mem_of_fails (fails : Channel → Bool) (e : PushEvent)
    (cs : List Channel) (c : Channel) (hf : fails c = true) :
    (c, e) ∉ sendLoop fails e cs := by
  induction cs with
  | nil => simp [sendLoop]
  | cons d cs ih =>
    cases hfd : fails d
    · simp only [sendLoop, hfd]
      intro hmem
      rcases List.mem_cons.mp hmem with heq | hmem
      · have : c = d := congrArg Prod.fst heq
        rw [this] at hf
        simp [hf] at hfd
      · exact ih hmem
    · simp only [sendLoop, hfd]
      exact ih

/-- C10: for a user with no entry in the Connection Registry,
`broadcast_to_user` delivers the event to no channel, raises no error,
and leaves the registry unchanged. -/
theorem broadcast_to_user_absent (r : Registry) (u : UserId) (e : PushEvent)
    (fails : Channel → Bool) (h : Registry.lookup r u = none) :
    broadcast_to_user r u e fails = (r, []) := by
  simp [broadcast_to_user, h]

theorem broadcast_to_user_absent_witness :
    Registry.lookup [(2, [30])] 1 = none ∧
    broadcast_to_user [(2, [30])] 1 (PushEvent.lowBalance 350 500) (fun _ => false) =
      ([(2, [30])], []) :=
  ⟨by decide,
   broadcast_to_user_absent [(2, [30])] 1 (PushEvent.lowBalance 350 500)
     (fun _ => false) (by decide)⟩

/-- C5: when one of a user's registered channels fails its send,
`broadcast_to_user` still delivers the event to every channel of that user
whose send succeeds, the registry (hence the failing channel's
registration) is untouched, and no error reaches the caller — the failing
channel simply receives nothing. -/
theorem broadcast_to_user_fault_isolated (r : Registry) (u : UserId)
    (e : PushEvent) (fails : Channel → Bool) (cs : List Channel) (c0 : Channel)
    (hcs : Registry.lookup r u = some cs) (hc0 : c0 ∈ cs) (hf : fails c0 = true) :
    (broadcast_to_user r u e fails).1 = r ∧
    (c0, e) ∉ (broadcast_to_user r u e fails).2 ∧
    ∀ c ∈ cs, fails c = false → (c, e) ∈ (broadcast_to_user r u e fails).2 := by
  refine ⟨by simp [broadcast_to_user, hcs], ?_, ?_⟩
  · simp only [broadcast_to_user, hcs]
    exact sendLoop_not_mem_of_fails fails e cs c0 hf
  · intro c hc hfc
    simp only [broadcast_to_user, hcs]
    exact sendLoop_mem_of_not_fails fails e cs c hc hfc

theorem broadcast_to_user_fault_isolated_witness :
    Registry.lookup [(1, [10, 20])] 1 = some [10, 20] ∧ (10 : Channel) ∈ [10, 20] ∧
    ((fun c : Channel => c == 10) 10 = true) ∧
    (broadcast_to_user [(1, [10, 20])] 1 (PushEvent.lowBalance 350 500)
        (fun c => c == 10)).1 = [(1, [10, 20])] ∧
    (10, PushEvent.lowBalance 350 500) ∉
      (broadcast_to_user [(1, [10, 20])] 1 (PushEvent.lowBalance 350 500)
        (fun c => c == 10)).2 ∧
    ∀ c ∈ [10, 20], (fun c : Channel => c == 10) c = false →
      (c, PushEvent.lowBalance 350 500) ∈
        (broadcast_to_user [(1, [10, 20])] 1 (PushEvent.lowBalance 350 500)
          (fun c => c == 10)).2 :=
  ⟨by decide, by decide, by decide,
   (broadcast_to_user_fault_isolated [(1, [10, 20])] 1 (PushEvent.lowBalance 350 500)
      (fun c => c == 10) [10, 20] 10 (by decide) (by decide) (by decide)).1,
   (broadcast_to_user_fault_isolated [(1, [10, 20])] 1 (PushEvent.lowBalance 350 500)
      (fun c => c == 10) [10, 20] 10 (by decide) (by decide) (by decide)).2.1,
   (broadcast_to_user_fault_isolated [(1, [10, 20])] 1 (PushEvent.lowBalance 350 500)
      (fun c => c == 10) [10, 20] 10 (by decide) (by decide) (by decide)).2.2⟩

/-- C3 counterexample: at the registry `[(1, [20])]` (user 1 with just
channel 20 open), `disconnect(1, 10)` hits `list.remove` on a list not
containing channel 10 and raises `ValueError` — it is not a no-op. -/
theorem disconnect_absent_channel_raises :
    disconnect [(1, [20])] 1 10 = Except.error "ValueError" := by rfl

/-- C3 (amended): `disconnect(u, c)` is an error-free no-op when `u` has no
entry in the registry at all; but when `u` has an entry whose channel list
does not contain `c`, the call raises `ValueError` (the registry itself is
left unchanged, since `list.remove` raises before mutating). -/
theorem disconnect_absent_channel (r : Registry) (u : UserId) (c : Channel) :
    (Registry.lookup r u = none → disconnect r u c = Except.ok r) ∧
    (∀ cs, Registry.lookup r u = some cs → c ∉ cs →
      disconnect r u c = Except.error "ValueError") := by
  induction r with
  | nil => simp [Registry.lookup, disconnect]
  | cons p rest ih =>
    obtain ⟨v, cs0⟩ := p
    by_cases hv : v = u
    · subst hv
      constructor
      · intro h
        simp [Registry.lookup] at h
      · intro cs hcs hmem
        simp [Registry.lookup] at hcs
        subst hcs
        simp [disconnect, hmem]
    · constructor
      · intro h
        simp only [Registry.lookup, if_neg hv] at h
        simp only [disconnect, if_neg hv, ih.1 h]
        rfl
      · intro cs hcs hmem
        simp only [Registry.lookup, if_neg hv] at hcs
        simp only [disconnect, if_neg hv, ih.2 cs hcs hmem]
        rfl

theorem disconnect_absent_channel_witness :
    (Registry.lookup [(1, [20])] 2 = none ∧
      disconnect [(1, [20])] 2 10 = Except.ok [(1, [20])]) ∧
    (Registry.lookup [(1, [20])] 1 = some [20] ∧ (10 : Channel) ∉ [20] ∧
      disconnect [(1, [20])] 1 10 = Except.error "ValueError") :=
  ⟨⟨by decide, (disconnect_absent_channel [(1, [20])] 2 10).1 (by decide)⟩,
   ⟨by decide, by decide,
    (disconnect_absent_channel [(1, [20])] 1 10).2 [20] (by decide) (by decide)⟩⟩

theorem connect_of_lookup_none (r : Registry) (u : UserId) (c : Channel)
    (h : Registry.lookup r u = none) : connect r u c = r ++ [(u, [c])] := by
  induction r with
  | nil => simp [connect]
  | cons p rest ih =>
    obtain ⟨v, cs⟩ := p
    by_cases hv : v = u
    · simp [Registry.lookup, hv] at h
    · simp only [Registry.lookup, if_neg hv] at h
      simp [connect, hv, ih h]

theorem connect_append_entry (r : Registry) (u : UserId) (cs : List Channel)
    (c : Channel) (h : Registry.lookup r u = none) :
    connect (r ++ [(u, cs)]) u c = r ++ [(u, cs ++ [c])] := by
  induction r with
  | nil => simp [connect]
  | cons p rest ih =>
    obtain ⟨v, cs0⟩ := p
    by_cases hv : v = u
    · simp [Registry.lookup, hv] at h
    · simp only [Registry.lookup, if_neg hv] at h
      simp [connect, hv, ih h]

theorem lookup_append_entry (r : Registry) (u : UserId) (cs : List Channel)
    (h : Registry.lookup r u = none) :
    Registry.lookup (r ++ [(u, cs)]) u = some cs := by
  induction r with
  | nil => simp [Registry.lookup]
  | cons p rest ih =>
    obtain ⟨v, cs0⟩ := p
    by_cases hv : v = u
    · simp [Registry.lookup, hv] at h
    · simp only [Registry.lookup, if_neg hv] at h
      simp [Registry.lookup, hv, ih h]

theorem disconnect_cons_ne (v : UserId) (cs0 : List Channel) (rest : Registry)
    (u : UserId) (c : Channel) (hv : v ≠ u) :
    disconnect ((v, cs0) :: rest) u c =
      match disconnect rest u c with
      | .ok rest' => .ok ((v, cs0) :: rest')
      | .error s => .error s := by
  simp only [disconnect, if_neg hv]
  cases disconnect rest u c <;> rfl

theorem disconnect_append_entry (r : Registry) (u : UserId) (cs : List Channel)
    (c : Channel) (h : Registry.lookup r u = none) (hc : c ∈ cs) :
    disconnect (r ++ [(u, cs)]) u c =
      Except.ok (if cs.erase c = [] then r else r ++ [(u, cs.erase c)]) := by
  induction r with
  | nil =>
    simp only [List.nil_append, disconnect, if_pos rfl, if_pos hc]
    by_cases he : cs.erase c = []
    · simp [he]
    · simp [he]
  | cons p rest ih =>
    obtain ⟨v, cs0⟩ := p
    by_cases hv : v = u
    · simp [Registry.lookup, hv] at h
    · simp only [Registry.lookup, if_neg hv] at h
      rw [List.cons_append, disconnect_cons_ne v cs0 (rest ++ [(u, cs)]) u c hv, ih h]
      by_cases he : cs.erase c = []
      · simp [he]
      · simp [he]

theorem noEmpty_connect (r : Registry) (u : UserId) (c : Channel)
    (h : NoEmpty r) : NoEmpty (connect r u c) := by
  induction r with
  | nil =>
    intro p hp
    simp [connect] at hp
    subst hp
    simp
  | cons q rest ih =>
    obtain ⟨v, cs⟩ := q
    by_cases hv : v = u
    · simp only [connect, if_pos hv]
      intro p hp
      rcases List.mem_cons.mp hp with rfl | hp
      · simp
      · exact h p (List.mem_cons_of_mem _ hp)
    · simp only [connect, if_neg hv]
      intro p hp
      rcases List.mem_cons.mp hp with rfl | hp
      · exact h (v, cs) (List.mem_cons_self _ _)
      · exact ih (fun q hq => h q (List.mem_cons_of_mem _ hq)) p hp

theorem noEmpty_disconnect (r : Registry) (u : UserId) (c : Channel)
    (r' : Registry) (hd : disconnect r u c = Except.ok r') (h : NoEmpty r) :
    NoEmpty r' := by
  induction r generalizing r' with
  | nil =>
    simp [disconnect] at hd
    subst hd
    intro p hp
    cases hp
  | cons q rest ih =>
    obtain ⟨v, cs⟩ := q
    by_cases hv : v = u
    · by_cases hc : c ∈ cs
      · by_cases he : cs.erase c = []
        · simp [disconnect, hv, hc, he] at hd
          subst hd
          exact fun p hp => h p (List.mem_cons_of_mem _ hp)
        · simp [disconnect, hv, hc, he] at hd
          subst hd
          intro p hp
          rcases List.mem_cons.mp hp with rfl | hp
          · exact he
          · exact h p (List.mem_cons_of_mem _ hp)
      · simp [disconnect, hv, hc] at hd
    · cases hrest : disconnect rest u c with
      | error err =>
        rw [disconnect_cons_ne v cs rest u c hv, hrest] at hd
        simp at hd
      | ok rest' =>
        rw [disconnect_cons_ne v cs rest u c hv, hrest] at hd
        simp at hd
        subst hd
        intro p hp
        rcases List.mem_cons.mp hp with rfl | hp
        · exact h (v, cs) (List.mem_cons_self _ _)
        · exact ih rest' hrest (fun q hq => h q (List.mem_cons_of_mem _ hq)) p hp

theorem noEmpty_applyRegOp (r : Registry) (op : RegOp) (h : NoEmpty r) :
    NoEmpty (applyRegOp r op) := by
  cases op with
  | connect u c => exact noEmpty_connect r u c h
  | disconnect u c =>
    simp only [applyRegOp]
    cases hd : disconnect r u c with
    | error err => exact h
    | ok r' => exact noEmpty_disconnect r u c r' hd h

theorem noEmpty_applyRegOps (ops : List RegOp) (r : Registry) (h : NoEmpty r) :
    NoEmpty (applyRegOps r ops) := by
  induction ops generalizing r with
  | nil => exact h
  | cons op ops ih => exact ih (applyRegOp r op) (noEmpty_applyRegOp r op h)

/-- C2: starting from a registry with no entry for `u`, after
`connect(u, c1)`, `connect(u, c2)`, `disconnect(u, c1)` the registry still
has an entry for `u`, and `send_to_user(u, e)` delivers `e` to `c2` and to
no other channel; after additionally `disconnect(u, c2)` the entry for `u`
is gone entirely.  Moreover, starting from any registry without empty
channel lists, no sequence of connect/disconnect operations ever leaves an
entry with an empty channel list. -/
theorem connection_registry_lifecycle (r0 : Registry) (u : UserId)
    (c1 c2 : Channel) (e : PushEvent) (h0 : Registry.lookup r0 u = none)
    (hne : c1 ≠ c2) :
    (∃ r3, disconnect (connect (connect r0 u c1) u c2) u c1 = Except.ok r3 ∧
       Registry.lookup r3 u = some [c2] ∧
       broadcast_to_user r3 u e (fun _ => false) = (r3, [(c2, e)]) ∧
       ∃ r4, disconnect r3 u c2 = Except.ok r4 ∧ Registry.lookup r4 u = none) ∧
    ∀ (r : Registry) (ops : List RegOp), NoEmpty r → NoEmpty (applyRegOps r ops) := by
  have herase : [c1, c2].erase c1 = [c2] := by simp
  constructor
  · refine ⟨r0 ++ [(u, [c2])], ?_, lookup_append_entry r0 u [c2] h0, ?_, r0, ?_, h0⟩
    · rw [connect_of_lookup_none r0 u c1 h0, connect_append_entry r0 u [c1] c2 h0]
      simp only [List.singleton_append]
      rw [disconnect_append_entry r0 u [c1, c2] c1 h0 (by simp), herase]
      simp
    · simp [broadcast_to_user, lookup_append_entry r0 u [c2] h0, sendLoop]
    · have := disconnect_append_entry r0 u [c2] c2 h0 (by simp)
      simpa using this
  · exact fun r ops h => noEmpty_applyRegOps ops r h

theorem connection_registry_lifecycle_witness :
    Registry.lookup ([] : Registry) 1 = none ∧ (10 : Channel) ≠ 20 ∧
    ((∃ r3, disconnect (connect (connect [] 1 10) 1 20) 1 10 = Except.ok r3 ∧
        Registry.lookup r3 1 = some [20] ∧
        broadcast_to_user r3 1 (PushEvent.lowBalance 350 500) (fun _ => false) =
          (r3, [(20, PushEvent.lowBalance 350 500)]) ∧
        ∃ r4, disconnect r3 1 20 = Except.ok r4 ∧ Registry.lookup r4 1 = none) ∧
      ∀ (r : Registry) (ops : List RegOp), NoEmpty r → NoEmpty (applyRegOps r ops)) :=
  ⟨rfl, by decide,
   connection_registry_lifecycle [] 1 10 20 (PushEvent.lowBalance 350 500) rfl (by decide)⟩

/-! ## Lemmas about the Notification Store -/

/-- C4 (code bug): a client marking a notification it does not own (or one
that does not exist) is meant to get the `HTTPException(404)` raised inside
the handler, but the handler's blanket `except Exception` catches that very
exception and re-raises it as `HTTPException(500, str(e))`; at this concrete
input — a store holding only notification 1 owned by user 1, and a call
marking notification 1 as user 2 — the caller receives HTTP 500 (whose
detail merely quotes the swallowed 404), not a 404, and no read flag
changes. -/
theorem mark_notification_read_missing_gives_500 :
    mark_notification_read
        [{ id := 1, user_id := 1, notification_type := "low_balance",
           title := "Atenção: Saldo Baixo!", message := "m", read := false,
           created_at := 0 }] 1 2 =
      (ApiResult.httpError 500 "404: Notificação não encontrada",
       [{ id := 1, user_id := 1, notification_type := "low_balance",
          title := "Atenção: Saldo Baixo!", message := "m", read := false,
          created_at := 0 }]) := by
  rfl

theorem markAllUpdate_idem (uid : UserId) (n : NotificationLog) :
    markAllUpdate uid (markAllUpdate uid n) = markAllUpdate uid n := by
  unfold markAllUpdate
  by_cases h : (n.user_id == uid && !n.read) = true
  · simp [h]
  · simp [h]

theorem markAllUpdate_read (uid : UserId) (n : NotificationLog)
    (h : (markAllUpdate uid n).user_id = uid) :
    (markAllUpdate uid n).read = true := by
  unfold markAllUpdate at h ⊢
  by_cases h1 : (n.user_id == uid && !n.read) = true
  · simp [h1]
  · simp only [if_neg h1] at h ⊢
    simp [h] at h1
    exact h1

/-- C7: `mark_all_read(u)` is idempotent — running the bulk update twice
leaves exactly the store that one run produces — it reports success even
when the user has no unread records, and afterwards every record of that
user is marked read. -/
theorem mark_all_notifications_read_idempotent (store : Store) (uid : UserId) :
    mark_all_notifications_read (mark_all_notifications_read store uid).2 uid =
      mark_all_notifications_read store uid ∧
    (mark_all_notifications_read store uid).1 = ApiResult.success ∧
    ∀ r ∈ (mark_all_notifications_read store uid).2,
      r.user_id = uid → r.read = true := by
  refine ⟨?_, rfl, ?_⟩
  · simp only [mark_all_notifications_read, List.map_map, Function.comp_def]
    rw [List.map_congr_left fun n _ => markAllUpdate_idem uid n]
  · intro r hr hu
    simp only [mark_all_notifications_read, List.mem_map] at hr
    obtain ⟨n, hn, rfl⟩ := hr
    exact markAllUpdate_read uid n hu

theorem mark_all_notifications_read_idempotent_witness :
    mark_all_notifications_read
        (mark_all_notifications_read
          [{ id := 1, user_id := 7, notification_type := "low_balance",
             title := "Atenção: Saldo Baixo!", message := "m", read := false,
             created_at := 0 }] 7).2 7 =
      mark_all_notifications_read
        [{ id := 1, user_id := 7, notification_type := "low_balance",
           title := "Atenção: Saldo Baixo!", message := "m", read := false,
           created_at := 0 }] 7 :=
  (mark_all_notifications_read_idempotent
    [{ id := 1, user_id := 7, notification_type := "low_balance",
       title := "Atenção: Saldo Baixo!", message := "m", read := false,
       created_at := 0 }] 7).1

theorem evolves_refl (r : NotificationLog) : evolves r r := by
  simp [evolves]

theorem evolves_trans {a b c : NotificationLog} (h1 : evolves a b)
    (h2 : evolves b c) : evolves a c := by
  obtain ⟨i1, u1, t1, ti1, m1, c1, r1⟩ := h1
  obtain ⟨i2, u2, t2, ti2, m2, c2, r2⟩ := h2
  exact ⟨i2.trans i1, u2.trans u1, t2.trans t1, ti2.trans ti1, m2.trans m1,
    c2.trans c1, fun h => r2 (r1 h)⟩

theorem forall₂_evolves_refl (s : Store) : List.Forall₂ evolves s s := by
  induction s with
  | nil => exact .nil
  | cons a s ih => exact .cons (evolves_refl a) ih

theorem forall₂_evolves_trans {a b c : Store} (h1 : List.Forall₂ evolves a b)
    (h2 : List.Forall₂ evolves b c) : List.Forall₂ evolves a c := by
  induction h1 generalizing c with
  | nil =>
    cases h2
    exact .nil
  | cons hab h ih =>
    cases h2 with
    | cons hbc h2 => exact .cons (evolves_trans hab hbc) (ih h2)

theorem forall₂_evolves_append_split {l1 l2 m : Store}
    (h : List.Forall₂ evolves (l1 ++ l2) m) :
    ∃ m1 m2, m = m1 ++ m2 ∧ List.Forall₂ evolves l1 m1 ∧
      List.Forall₂ evolves l2 m2 := by
  induction l1 generalizing m with
  | nil => exact ⟨[], m, rfl, .nil, h⟩
  | cons a l1 ih =>
    cases h with
    | cons hab h =>
      obtain ⟨m1, m2, rfl, h1, h2⟩ := ih h
      exact ⟨_ :: m1, m2, rfl, .cons hab h1, h2⟩

/-- The store `s` may evolve into `s'`: `s'` consists of the records of `s`
in order — none deleted, every field preserved, read flags possibly flipped
from unread to read — followed by newly created records. -/
def StoreEvolves (s s' : Store) : Prop :=
  ∃ pre ext, s' = pre ++ ext ∧ List.Forall₂ evolves s pre

theorem storeEvolves_refl (s : Store) : StoreEvolves s s :=
  ⟨s, [], by simp, forall₂_evolves_refl s⟩

theorem storeEvolves_trans {a b c : Store} (h1 : StoreEvolves a b)
    (h2 : StoreEvolves b c) : StoreEvolves a c := by
  obtain ⟨p1, e1, rfl, f1⟩ := h1
  obtain ⟨p2, e2, rfl, f2⟩ := h2
  obtain ⟨m1, m2, rfl, g1, g2⟩ := forall₂_evolves_append_split f2
  exact ⟨m1, m2 ++ e2, by simp, forall₂_evolves_trans f1 g1⟩

theorem forall₂_setReadFirst (p : NotificationLog → Bool) (s : Store) :
    List.Forall₂ evolves s (setReadFirst p s) := by
  induction s with
  | nil => exact .nil
  | cons n rest ih =>
    by_cases h : p n = true
    · simp only [setReadFirst, if_pos h]
      exact .cons (by simp [evolves]) (forall₂_evolves_refl rest)
    · simp only [setReadFirst, if_neg h]
      exact .cons (evolves_refl n) ih

theorem evolves_markAllUpdate (uid : UserId) (n : NotificationLog) :
    evolves n (markAllUpdate uid n) := by
  unfold markAllUpdate
  by_cases h : (n.user_id == uid && !n.read) = true
  · simp [h, evolves]
  · simp [h, evolves_refl]

theorem forall₂_map_markAllUpdate (uid : UserId) (s : Store) :
    List.Forall₂ evolves s (s.map (markAllUpdate uid)) := by
  induction s with
  | nil => exact .nil
  | cons n rest ih => exact .cons (evolves_markAllUpdate uid n) ih

theorem storeEvolves_applyStoreOp (store : Store) (op : StoreOp) :
    StoreEvolves store (applyStoreOp store op) := by
  cases op with
  | create rec => exact ⟨store, [rec], rfl, forall₂_evolves_refl store⟩
  | listByUser uid => exact storeEvolves_refl store
  | markRead nid uid =>
    simp only [applyStoreOp, mark_notification_read, mark_read_body]
    cases hf : store.find? (matchesNotification nid uid) with
    | none => exact storeEvolves_refl store
    | some n =>
      exact ⟨setReadFirst (matchesNotification nid uid) store, [], by simp,
        forall₂_setReadFirst _ store⟩
  | markAllRead uid =>
    exact ⟨store.map (markAllUpdate uid), [],
      by simp [applyStoreOp, mark_all_notifications_read],
      forall₂_map_markAllUpdate uid store⟩

/-- C8: under any sequence of Notification Store operations (create,
list-by-user, mark-read, mark-all-read), every record present at the start
is still present, with the same identity, kind, title, message and
timestamp, and its read flag has only ever moved from unread to read —
never back — while new records are only appended. -/
theorem store_records_monotone (ops : List StoreOp) (store : Store) :
    StoreEvolves store (applyStoreOps store ops) := by
  induction ops generalizing store with
  | nil => exact storeEvolves_refl store
  | cons op ops ih =>
    exact storeEvolves_trans (storeEvolves_applyStoreOp store op)
      (ih (applyStoreOp store op))

/-! ## The monitor loops survive per-iteration faults -/

theorem runMonitor_count (body : Nat → Store → Except String Store) :
    ∀ (n k : Nat) (s : Store), (runMonitor body k n s).2 = n := by
  intro n
  induction n with
  | zero => intro k s; rfl
  | succ n ih =>
    intro k s
    simp only [runMonitor, ih]

/-- C9: the monitor loops catch any error at the iteration boundary and
keep going.  Whatever each iteration's body does — including raising — a
run of `n` iterations completes all `n` of them, and when iteration `k`'s
body raises, the loop still performs the following `n` iterations, starting
them from the state the failed iteration left untouched. -/
theorem monitor_survives_faults (body : Nat → Store → Except String Store)
    (k n : Nat) (s : Store) :
    (runMonitor body k n s).2 = n ∧
    ∀ e, body k s = Except.error e →
      runMonitor body k (n + 1) s = ((runMonitor body (k + 1) n s).1, n + 1) := by
  refine ⟨runMonitor_count body n k s, ?_⟩
  intro e he
  have hiter : monitorIter (body k) s = s := by
    simp [monitorIter, he]
  simp only [runMonitor, hiter, runMonitor_count body n (k + 1) s]

theorem monitor_survives_faults_witness :
    ((fun (_ : Nat) (_ : Store) => (Except.error "StoreUnavailable" : Except String Store)) 0 [] =
      Except.error "StoreUnavailable") ∧
    (runMonitor (fun _ _ => Except.error "StoreUnavailable") 0 2 []).2 = 2 ∧
    runMonitor (fun _ _ => Except.error "StoreUnavailable") 0 3 [] =
      ((runMonitor (fun _ _ => Except.error "StoreUnavailable") 1 2 []).1, 3) :=
  ⟨rfl,
   (monitor_survives_faults (fun _ _ => Except.error "StoreUnavailable") 0 2 []).1,
   (monitor_survives_faults (fun _ _ => Except.error "StoreUnavailable") 0 2 []).2
     "StoreUnavailable" rfl⟩

/-! ## Delay-notification content -/

theorem notifyDelayLoop_spec (line : TransitLine) (d : Int) (reason : String)
    (now : Nat) :
    ∀ (ulist : List UserLine) (nid : Nat),
      ((notifyDelayLoop line d reason now nid ulist).1.map fun r =>
          (r.user_id, r.notification_type, r.title, r.message, r.read,
           r.created_at)) =
        ulist.map (fun ul => (ul.user_id, "line_delay", "Atraso na " ++ line.name,
          "Motivo: " ++ reason ++ ". Tempo estimado de atraso: " ++ toString d ++
            " minutos.", false, now)) ∧
      (notifyDelayLoop line d reason now nid ulist).2 =
        ulist.map (fun ul =>
          (ul.user_id, PushEvent.lineDelay line.id line.name d reason)) := by
  intro ulist
  induction ulist with
  | nil => intro nid; exact ⟨rfl, rfl⟩
  | cons ul rest ih =>
    intro nid
    refine ⟨?_, ?_⟩
    · simp only [notifyDelayLoop, List.map_cons, (ih (nid + 1)).1, delayRecord]
    · simp only [notifyDelayLoop, List.map_cons, (ih (nid + 1)).2]

/-- C1 counterexample: at a concrete line named "Linha 101" with one
subscriber, delay 15 and reason "accident", the record the code creates is
titled "Atraso na Linha 101" with message "Motivo: accident. Tempo estimado
de atraso: 15 minutos." — not the English title "Delay on Linha 101" nor
the English message the claim quotes. -/
theorem delay_notification_strings_not_english :
    (((notify_users_about_line_delay [] [⟨7, 101⟩] ⟨101, "Linha 101", 0, none⟩
        15 "accident" 5 1).1.map fun r => (r.title, r.message)) =
      [("Atraso na Linha 101",
        "Motivo: accident. Tempo estimado de atraso: 15 minutos.")]) ∧
    ("Atraso na Linha 101" : String) ≠ "Delay on Linha 101" ∧
    ("Motivo: accident. Tempo estimado de atraso: 15 minutos." : String) ≠
      "Reason: accident. Estimated delay: 15 minutes." := by
  refine ⟨by rfl, by decide, by decide⟩

/-- C1 (amended): when the Delay Monitor's change gate (modelled from the
spec, since its body is a commented-out stub in the source) sees an
unchanged delay, it touches nothing; when the delay changed, every
subscriber of the line gets exactly one appended NotificationRecord of kind
`line_delay` with the Portuguese title "Atraso na <line name>" and message
"Motivo: <reason>. Tempo estimado de atraso: <minutes> minutos.", unread,
timestamped now, and `send_to_user` is invoked once per subscriber with the
event `{type: line_delay, line_id, line_name, delay_minutes, reason}`. -/
theorem delayMonitorLineStep_correct (store : Store) (subs : List UserLine)
    (line : TransitLine) (new_delay : Int) (reason : String) (now nextId : Nat) :
    (new_delay = line.current_delay →
      delayMonitorLineStep store subs line new_delay reason now nextId =
        (store, [])) ∧
    (new_delay ≠ line.current_delay →
      ∃ ext,
        (delayMonitorLineStep store subs line new_delay reason now nextId).1 =
          store ++ ext ∧
        (ext.map fun r => (r.user_id, r.notification_type, r.title, r.message,
            r.read, r.created_at)) =
          (subs.filter fun ul => ul.line_id == line.id).map (fun ul =>
            (ul.user_id, "line_delay", "Atraso na " ++ line.name,
             "Motivo: " ++ reason ++ ". Tempo estimado de atraso: " ++
               toString new_delay ++ " minutos.", false, now)) ∧
        (delayMonitorLineStep store subs line new_delay reason now nextId).2 =
          (subs.filter fun ul => ul.line_id == line.id).map (fun ul =>
            (ul.user_id, PushEvent.lineDelay line.id line.name new_delay reason))) := by
  constructor
  · intro h
    simp [delayMonitorLineStep, h]
  · intro h
    refine ⟨(notifyDelayLoop line new_delay reason now nextId
      (subs.filter fun ul => ul.line_id == line.id)).1, ?_, ?_, ?_⟩
    · simp [delayMonitorLineStep, h, notify_users_about_line_delay]
    · exact (notifyDelayLoop_spec line new_delay reason now
        (subs.filter fun ul => ul.line_id == line.id) nextId).1
    · simp only [delayMonitorLineStep, if_pos h, notify_users_about_line_delay]
      exact (notifyDelayLoop_spec line new_delay reason now
        (subs.filter fun ul => ul.line_id == line.id) nextId).2

theorem delayMonitorLineStep_correct_witness :
    ((0 : Int) = (⟨101, "Linha 101", 0, none⟩ : TransitLine).current_delay ∧
      delayMonitorLineStep [] [⟨7, 101⟩] ⟨101, "Linha 101", 0, none⟩ 0 "accident"
          5 1 = ([], [])) ∧
    ((15 : Int) ≠ (⟨101, "Linha 101", 0, none⟩ : TransitLine).current_delay ∧
      ∃ ext,
        (delayMonitorLineStep [] [⟨7, 101⟩] ⟨101, "Linha 101", 0, none⟩ 15
            "accident" 5 1).1 = [] ++ ext ∧
        (ext.map fun r => (r.user_id, r.notification_type, r.title, r.message,
            r.read, r.created_at)) =
          (([⟨7, 101⟩] : List UserLine).filter fun ul =>
              ul.line_id == (⟨101, "Linha 101", 0, none⟩ : TransitLine).id).map
            (fun ul => (ul.user_id, "line_delay",
              "Atraso na " ++ (⟨101, "Linha 101", 0, none⟩ : TransitLine).name,
              "Motivo: " ++ "accident" ++ ". Tempo estimado de atraso: " ++
                toString (15 : Int) ++ " minutos.", false, 5)) ∧
        (delayMonitorLineStep [] [⟨7, 101⟩] ⟨101, "Linha 101", 0, none⟩ 15
            "accident" 5 1).2 =
          (([⟨7, 101⟩] : List UserLine).filter fun ul =>
              ul.line_id == (⟨101, "Linha 101", 0, none⟩ : TransitLine).id).map
            (fun ul => (ul.user_id, PushEvent.lineDelay
              (⟨101, "Linha 101", 0, none⟩ : TransitLine).id
              (⟨101, "Linha 101", 0, none⟩ : TransitLine).name 15 "accident"))) :=
  ⟨⟨rfl, (delayMonitorLineStep_correct [] [⟨7, 101⟩] ⟨101, "Linha 101", 0, none⟩
      0 "accident" 5 1).1 rfl⟩,
   ⟨by decide, (delayMonitorLineStep_correct [] [⟨7, 101⟩]
      ⟨101, "Linha 101", 0, none⟩ 15 "accident" 5 1).2 (by decide)⟩⟩

/-! ## Balance-monitor once-per-day behaviour -/

theorem notifiedToday_append (store ext : Store) (uid : UserId) (t : Nat)
    (h : notifiedToday store uid t = true) :
    notifiedToday (store ++ ext) uid t = true := by
  simp only [notifiedToday] at h ⊢
  simp [List.any_append, h]

theorem balanceLoop_spec (t now : Nat) (users : List PyUser) :
    ∀ (store : Store) (nid : Nat),
      ∃ ext, (balanceLoop t now store nid users).1 = store ++ ext ∧
        ∀ r ∈ ext, ∃ u ∈ users, u.id = r.user_id ∧ u.balance < MIN_BALANCE ∧
          r.notification_type = "low_balance" ∧
          r.title = "Atenção: Saldo Baixo!" ∧
          r.message = "Seu saldo atual é de R$ " ++ formatBalance u.balance ++
            ". Recarregue para evitar interrupções." ∧
          r.created_at = now ∧
          (u.id, PushEvent.lowBalance u.balance MIN_BALANCE) ∈
            (balanceLoop t now store nid users).2 := by
  induction users with
  | nil =>
    intro store nid
    exact ⟨[], by simp [balanceLoop], by simp⟩
  | cons u rest ih =>
    intro store nid
    by_cases hc :
        (decide (u.balance < MIN_BALANCE) && !notifiedToday store u.id t) = true
    · obtain ⟨ext, he, hall⟩ := ih (store ++ [lowBalanceRecord nid u now]) (nid + 1)
      refine ⟨lowBalanceRecord nid u now :: ext, ?_, ?_⟩
      · simp only [balanceLoop, if_pos hc, he]
        simp
      · intro r hr
        rcases List.mem_cons.mp hr with rfl | hr
        · have hb : u.balance < MIN_BALANCE := by
            have h2 := hc
            simp only [Bool.and_eq_true, decide_eq_true_eq] at h2
            exact h2.1
          refine ⟨u, List.mem_cons_self _ _, rfl, hb, rfl, rfl, rfl, rfl, ?_⟩
          simp only [balanceLoop, if_pos hc]
          exact List.mem_cons_self _ _
        · obtain ⟨u2, hu2, hid, hb2, hty, hti, hm, hcr, hev⟩ := hall r hr
          refine ⟨u2, List.mem_cons_of_mem _ hu2, hid, hb2, hty, hti, hm, hcr, ?_⟩
          simp only [balanceLoop, if_pos hc]
          exact List.mem_cons_of_mem _ hev
    · obtain ⟨ext, he, hall⟩ := ih store nid
      refine ⟨ext, ?_, ?_⟩
      · simp only [balanceLoop, if_neg hc, he]
      · intro r hr
        obtain ⟨u2, hu2, hid, hb2, hty, hti, hm, hcr, hev⟩ := hall r hr
        refine ⟨u2, List.mem_cons_of_mem _ hu2, hid, hb2, hty, hti, hm, hcr, ?_⟩
        simp only [balanceLoop, if_neg hc]
        exact hev

theorem balanceLoop_noop (t now : Nat) (users : List PyUser) :
    ∀ (store : Store) (nid : Nat),
      (∀ u ∈ users, u.balance < MIN_BALANCE →
        notifiedToday store u.id t = true) →
      balanceLoop t now store nid users = (store, []) := by
  induction users with
  | nil =>
    intro store nid _
    rfl
  | cons u rest ih =>
    intro store nid h
    have hc :
        (decide (u.balance < MIN_BALANCE) && !notifiedToday store u.id t) = false := by
      by_cases hb : u.balance < MIN_BALANCE
      · simp [h u (List.mem_cons_self _ _) hb]
      · simp [hb]
    have hstep : balanceLoop t now store nid (u :: rest) =
        balanceLoop t now store nid rest := by
      simp [balanceLoop, hc]
    rw [hstep]
    exact ih store nid fun v hv hb => h v (List.mem_cons_of_mem _ hv) hb

theorem balanceLoop_all_notified (t now : Nat) (hnow : t ≤ now)
    (users : List PyUser) :
    ∀ (store : Store) (nid : Nat) (u : PyUser), u ∈ users →
      u.balance < MIN_BALANCE →
      notifiedToday (balanceLoop t now store nid users).1 u.id t = true := by
  induction users with
  | nil =>
    intro store nid u hu
    cases hu
  | cons v rest ih =>
    intro store nid u hu hb
    by_cases hc :
        (decide (v.balance < MIN_BALANCE) && !notifiedToday store v.id t) = true
    · have hstep : (balanceLoop t now store nid (v :: rest)).1 =
          (balanceLoop t now (store ++ [lowBalanceRecord nid v now])
            (nid + 1) rest).1 := by
        simp [balanceLoop, hc]
      rw [hstep]
      rcases List.mem_cons.mp hu with rfl | hu
      · have hself :
            notifiedToday (store ++ [lowBalanceRecord nid u now]) u.id t = true := by
          simp [notifiedToday, lowBalanceRecord, hnow]
        obtain ⟨ext, he, -⟩ := balanceLoop_spec t now rest
          (store ++ [lowBalanceRecord nid u now]) (nid + 1)
        rw [he]
        exact notifiedToday_append _ ext u.id t hself
      · exact ih (store ++ [lowBalanceRecord nid v now]) (nid + 1) u hu hb
    · have hstep : (balanceLoop t now store nid (v :: rest)).1 =
          (balanceLoop t now store nid rest).1 := by
        simp [balanceLoop, hc]
      rw [hstep]
      rcases List.mem_cons.mp hu with rfl | hu
      · have hn : notifiedToday store u.id t = true := by
          cases hbool : notifiedToday store u.id t
          · exact absurd (by simp [hb, hbool]) hc
          · rfl
        obtain ⟨ext, he, -⟩ := balanceLoop_spec t now rest store nid
        rw [he]
        exact notifiedToday_append store ext u.id t hn
      · exact ih store nid u hu hb

/-- C6 counterexample: at a concrete user with balance 3.50 against the
5.00 minimum and an empty store, the record one Balance Monitor cycle
creates is titled "Atenção: Saldo Baixo!" — not the English
"Attention: Low Balance!" the claim quotes. -/
theorem low_balance_title_not_english :
    (((monitor_low_balance_cycle [] [⟨7, 350⟩] 0 5 1).1.map fun r => r.title) =
      ["Atenção: Saldo Baixo!"]) ∧
    ("Atenção: Saldo Baixo!" : String) ≠ "Attention: Low Balance!" := by
  refine ⟨by rfl, by decide⟩

/-- C6 (amended): a Balance Monitor cycle run at a time on or after the
start of the current day notifies each user with balance strictly below
the minimum at most once per calendar day — a second cycle the same day
creates no record and pushes no event at all — and every record a cycle
creates belongs to some user with balance strictly below the minimum, has
kind `low_balance`, the Portuguese title "Atenção: Saldo Baixo!", a message
embedding the formatted current balance, and comes with a
`{type: low_balance, current_balance, min_balance}` event pushed to that
user; users at or above the minimum never contribute a record. -/
theorem monitor_low_balance_once_per_day (store : Store) (users : List PyUser)
    (todayStart now nextId nowB nidB : Nat) (hnow : todayStart ≤ now) :
    monitor_low_balance_cycle
        (monitor_low_balance_cycle store users todayStart now nextId).1
        users todayStart nowB nidB =
      ((monitor_low_balance_cycle store users todayStart now nextId).1, []) ∧
    ∃ ext,
      (monitor_low_balance_cycle store users todayStart now nextId).1 =
        store ++ ext ∧
      ∀ r ∈ ext, ∃ u ∈ users, u.id = r.user_id ∧ u.balance < MIN_BALANCE ∧
        r.notification_type = "low_balance" ∧
        r.title = "Atenção: Saldo Baixo!" ∧
        r.message = "Seu saldo atual é de R$ " ++ formatBalance u.balance ++
          ". Recarregue para evitar interrupções." ∧
        r.created_at = now ∧
        (u.id, PushEvent.lowBalance u.balance MIN_BALANCE) ∈
          (monitor_low_balance_cycle store users todayStart now nextId).2 := by
  constructor
  · exact balanceLoop_noop todayStart nowB users
      (monitor_low_balance_cycle store users todayStart now nextId).1 nidB
      fun u hu hb =>
        balanceLoop_all_notified todayStart now hnow users store nextId u hu hb
  · exact balanceLoop_spec todayStart now users store nextId

theorem monitor_low_balance_once_per_day_witness :
    (0 : Nat) ≤ 5 ∧
    monitor_low_balance_cycle
        (monitor_low_balance_cycle [] [⟨7, 350⟩] 0 5 1).1 [⟨7, 350⟩] 0 6 2 =
      ((monitor_low_balance_cycle [] [⟨7, 350⟩] 0 5 1).1, []) :=
  ⟨by decide,
   (monitor_low_balance_once_per_day [] [⟨7, 350⟩] 0 5 1 6 2 (by decide)).1⟩

end AbexIV
